import Mathlib

/-!
Verification of `src/pwa/service-worker.js` (askthecontract PWA service worker).

The worker registers three listeners:
  * `install`  — opens the cache named `CACHE_NAME` and bulk-adds the `ASSETS` manifest;
  * `activate` — deletes every cache whose name differs from `CACHE_NAME`;
  * `fetch`    — routes by `url.pathname.startsWith('/api/')`: API requests go
    network-only with an offline JSON fallback on transport error; all other
    requests are served cache-first, with a fire-and-forget `cache.put` of
    successful GET responses.

We embed responses, requests, the cache storage and the three listeners as
executable Lean definitions.  The network is a parameter
`net : Request → Option Response` where `none` is a transport-level failure
(rejected fetch) and `some r` a resolved response of any HTTP status.
The fire-and-forget `caches.open(...).then(cache => cache.put(...))` chain is
embedded as a list of deferred writes recorded in the fetch outcome and applied
separately by `applyWrites`, preserving the fact that the response is returned
to the caller independently of (and before) the store write settling.
-/

/-- An HTTP response: status code, header list and body text.  `new Response(body, init)`
with no status in `init` produces status 200. -/
structure Response where
  status : Nat
  headers : List (String × String)
  body : String
deriving DecidableEq

/-- `response.ok`: status in the 2xx range. -/
def Response.ok (r : Response) : Bool :=
  decide (200 ≤ r.status) && decide (r.status < 300)

/-- `response.clone()` — a value-identical copy of the response. -/
def Response.clone (r : Response) : Response := r

/-- A request as the fetch listener sees it: the URL pathname (`new URL(request.url).pathname`)
and the HTTP method. -/
structure Request where
  pathname : String
  method : String
deriving DecidableEq

/-- `s.startsWith(p)` on strings, computed on the character data. -/
def strStartsWith (s p : String) : Bool :=
  p.data.isPrefixOf s.data

/-- One named cache: an association list from URL to the stored response. -/
abbrev Store := List (String × Response)

/-- The cache storage (`caches`): an association list from cache name to its store. -/
abbrev CacheSet := List (String × Store)

/-- `const CACHE_NAME = 'atc-v1'` — the current version tag. -/
def CACHE_NAME : String := "atc-v1"

/-- `const ASSETS = [...]` — the asset manifest cached at install time. -/
def ASSETS : List String :=
  ["/", "/index.html", "/manifest.json", "/icons/icon-192.png", "/icons/icon-512.png"]

/-- Look up a URL in one store (platform `cache.match` restricted to one store). -/
def storeGet (s : Store) (url : String) : Option Response :=
  match s with
  | [] => none
  | (u, r) :: rest => if u = url then some r else storeGet rest url

/-- `cache.put(url, r)`: insert or overwrite the entry for `url`. -/
def storePut (s : Store) (url : String) (r : Response) : Store :=
  match s with
  | [] => [(url, r)]
  | (u, x) :: rest => if u = url then (url, r) :: rest else (u, x) :: storePut rest url r

/-- Find the store with a given name, if present. -/
def getCache (cs : CacheSet) (name : String) : Option Store :=
  match cs with
  | [] => none
  | (n, s) :: rest => if n = name then some s else getCache rest name

/-- `caches.open(name)`: return the storage, creating an empty store for `name` if absent. -/
def openCache (cs : CacheSet) (name : String) : CacheSet :=
  match getCache cs name with
  | some _ => cs
  | none => cs ++ [(name, [])]

/-- Replace the store held under `name` (the storage after a mutation of that store). -/
def setCache (cs : CacheSet) (name : String) (s : Store) : CacheSet :=
  match cs with
  | [] => []
  | (n, x) :: rest => if n = name then (n, s) :: rest else (n, x) :: setCache rest name s

/-- `caches.keys()`: the list of cache names. -/
def cacheNames (cs : CacheSet) : List String :=
  cs.map Prod.fst

/-- The response stored for `url` in the cache named `name`, if any. -/
def cacheHas (cs : CacheSet) (name url : String) : Option Response :=
  match getCache cs name with
  | some s => storeGet s url
  | none => none

/-- `caches.match(request)`: search every store in order; per the platform default,
only GET requests can match stored entries. -/
def cachesMatch (cs : CacheSet) (req : Request) : Option Response :=
  if req.method = "GET" then
    match cs with
    | [] => none
    | (_, s) :: rest =>
      match storeGet s req.pathname with
      | some r => some r
      | none => cachesMatch rest req
  else none

/-- The network collaborator: `none` is a transport-level fetch failure,
`some r` a resolved response of any status. -/
abbrev Network := Request → Option Response

/-- `cache.addAll(urls)`: fetch every URL (as a GET) and store each response;
if any fetch fails the whole operation fails. -/
def addAll (s : Store) (net : Network) (urls : List String) : Option Store :=
  match urls with
  | [] => some s
  | u :: rest =>
    match net ⟨u, "GET"⟩ with
    | none => none
    | some r => addAll (storePut s u r) net rest

/-- The install listener body:
`caches.open(CACHE_NAME).then(cache => cache.addAll(ASSETS))`, held open by
`event.waitUntil`; `none` means the install (setup) failed. -/
def install (cs : CacheSet) (net : Network) : Option CacheSet :=
  match getCache (openCache cs CACHE_NAME) CACHE_NAME with
  | none => none
  | some s =>
    match addAll s net ASSETS with
    | none => none
    | some s1 => some (setCache (openCache cs CACHE_NAME) CACHE_NAME s1)

/-- The activate listener body:
`caches.keys()` filtered to names other than `CACHE_NAME`, each deleted —
i.e. only stores named `CACHE_NAME` survive. -/
def activate (cs : CacheSet) : CacheSet :=
  cs.filter (fun e => e.1 = CACHE_NAME)

/-- A deferred `caches.open(name).then(cache => cache.put(url, response))` chain,
recorded by the fetch handler and applied asynchronously. -/
structure DeferredWrite where
  cacheName : String
  url : String
  response : Response
deriving DecidableEq

/-- The observable outcome of handling one fetch event: the value the caller's
fetch settles with (`none` = the fetch rejects with the propagated transport
error), whether the network was contacted, and the deferred store writes. -/
structure FetchOutcome where
  result : Option Response
  networkUsed : Bool
  writes : List DeferredWrite
deriving DecidableEq

/-- The synthetic offline response built in the API branch:
`new Response(JSON.stringify(\x7b error: 'You appear to be offline.' \x7d),
\x7b headers: \x7b 'Content-Type': 'application/json' \x7d \x7d)`. -/
def offlineFallback : Response :=
  ⟨200, [("Content-Type", "application/json")],
    "\x7b\"error\":\"You appear to be offline.\"\x7d"⟩

/-- The fetch listener body, translated clause by clause from the source. -/
def handleFetch (req : Request) (cs : CacheSet) (net : Network) : FetchOutcome :=
  if strStartsWith req.pathname "/api/" then
    match net req with
    | some r => ⟨some r, true, []⟩
    | none => ⟨some offlineFallback, true, []⟩
  else
    match cachesMatch cs req with
    | some cached => ⟨some cached, false, []⟩
    | none =>
      match net req with
      | none => ⟨none, true, []⟩
      | some response =>
        if response.ok && req.method = "GET" then
          ⟨some response, true, [⟨CACHE_NAME, req.pathname, response.clone⟩]⟩
        else
          ⟨some response, true, []⟩

/-- The API branch of the fetch listener, in isolation:
`fetch(request).catch(() => new Response(...))`. -/
def apiBranch (req : Request) (net : Network) : FetchOutcome :=
  match net req with
  | some r => ⟨some r, true, []⟩
  | none => ⟨some offlineFallback, true, []⟩

/-- The static-asset (cache-first) branch of the fetch listener, in isolation. -/
def staticBranch (req : Request) (cs : CacheSet) (net : Network) : FetchOutcome :=
  match cachesMatch cs req with
  | some cached => ⟨some cached, false, []⟩
  | none =>
    match net req with
    | none => ⟨none, true, []⟩
    | some response =>
      if response.ok && req.method = "GET" then
        ⟨some response, true, [⟨CACHE_NAME, req.pathname, response.clone⟩]⟩
      else
        ⟨some response, true, []⟩

/-- Apply one deferred write: open (creating if absent) its cache, then put. -/
def applyWrite (cs : CacheSet) (w : DeferredWrite) : CacheSet :=
  match cs with
  | [] => [(w.cacheName, storePut [] w.url w.response)]
  | (n, s) :: rest =>
    if n = w.cacheName then (n, storePut s w.url w.response) :: rest
    else (n, s) :: applyWrite rest w

/-- Apply a list of deferred writes in order. -/
def applyWrites (cs : CacheSet) (ws : List DeferredWrite) : CacheSet :=
  ws.foldl applyWrite cs

/-- Modelled from the spec: the host lifecycle around the listeners (the
`event.waitUntil` contract).  Setup completion gates activation: if install
fails nothing changes and the previously active version keeps serving; if it
succeeds the new version activates (purging stale stores) and, via
`skipWaiting`/`clients.claim`, takes control. -/
structure WorkerState where
  activeTag : Option String
  caches : CacheSet
deriving DecidableEq

/-- Modelled from the spec: one upgrade attempt — run install; on failure keep
the previous state, on success activate the new version. -/
def upgrade (st : WorkerState) (net : Network) : WorkerState :=
  match install st.caches net with
  | none => st
  | some cs => ⟨some CACHE_NAME, activate cs⟩

/-! Helper lemmas about the store and cache-set operations. -/

lemma storeGet_storePut_self (s : Store) (url : String) (r : Response) :
    storeGet (storePut s url r) url = some r := by
  induction s with
  | nil => simp [storePut, storeGet]
  | cons hd tl ih =>
    obtain ⟨u, x⟩ := hd
    by_cases h : u = url
    · simp [storePut, h, storeGet]
    · simp [storePut, h, storeGet, ih]

lemma storeGet_storePut_ne (s : Store) (url u' : String) (r : Response) (h : u' ≠ url) :
    storeGet (storePut s url r) u' = storeGet s u' := by
  induction s with
  | nil => simp [storePut, storeGet, Ne.symm h]
  | cons hd tl ih =>
    obtain ⟨u, x⟩ := hd
    by_cases hu : u = url
    · subst hu
      simp [storePut, storeGet, h, Ne.symm h]
    · simp [storePut, hu, storeGet]
      by_cases hu' : u = u'
      · simp [hu']
      · simp [hu', ih]

lemma addAll_spec (net : Network) :
    ∀ (urls : List String) (s s1 : Store), addAll s net urls = some s1 →
      ∀ u : String,
        (u ∈ urls → ∃ r, net ⟨u, "GET"⟩ = some r ∧ storeGet s1 u = some r) ∧
        (u ∉ urls → storeGet s1 u = storeGet s u) := by
  intro urls
  induction urls with
  | nil =>
    intro s s1 h u
    simp [addAll] at h
    subst h
    simp
  | cons u0 rest ih =>
    intro s s1 h u
    simp only [addAll] at h
    cases hn : net ⟨u0, "GET"⟩ with
    | none => rw [hn] at h; exact absurd h (by simp)
    | some r0 =>
      rw [hn] at h
      have hrec := ih (storePut s u0 r0) s1 h
      constructor
      · intro hmem
        by_cases hr : u ∈ rest
        · exact (hrec u).1 hr
        · have hu0 : u = u0 := by
            rcases List.mem_cons.mp hmem with h1 | h1
            · exact h1
            · exact absurd h1 hr
          subst hu0
          refine ⟨r0, hn, ?_⟩
          rw [(hrec u).2 hr, storeGet_storePut_self]
      · intro hmem
        have hne : u ≠ u0 := fun hc => hmem (by simp [hc])
        have hr : u ∉ rest := fun hc => hmem (by simp [hc])
        rw [(hrec u).2 hr, storeGet_storePut_ne _ _ _ _ hne]

lemma addAll_fail (net : Network) (u : String) :
    ∀ (urls : List String) (s : Store), u ∈ urls → net ⟨u, "GET"⟩ = none →
      addAll s net urls = none := by
  intro urls
  induction urls with
  | nil => intro s h; simp at h
  | cons u0 rest ih =>
    intro s hmem hnet
    simp only [addAll]
    cases hn : net ⟨u0, "GET"⟩ with
    | none => rfl
    | some r0 =>
      have hne : u ≠ u0 := fun hc => by rw [hc, hn] at hnet; exact absurd hnet (by simp)
      have hr : u ∈ rest := by
        rcases List.mem_cons.mp hmem with h1 | h1
        · exact absurd h1 hne
        · exact h1
      exact ih (storePut s u0 r0) hr hnet

lemma getCache_append_none (cs l : CacheSet) (n : String) (h : getCache cs n = none) :
    getCache (cs ++ l) n = getCache l n := by
  induction cs with
  | nil => simp
  | cons hd tl ih =>
    obtain ⟨m, s⟩ := hd
    by_cases hm : m = n
    · simp [getCache, hm] at h
    · simp only [getCache, hm, if_false, List.cons_append] at h ⊢
      simp [getCache, hm]
      exact ih h

lemma getCache_openCache_self (cs : CacheSet) (n : String) :
    getCache (openCache cs n) n = some ((getCache cs n).getD []) := by
  unfold openCache
  cases h : getCache cs n with
  | some s => simp [h]
  | none =>
    rw [getCache_append_none cs _ n h]
    simp [getCache]

lemma getCache_setCache_self (cs : CacheSet) (n : String) (s0 s : Store)
    (h : getCache cs n = some s0) :
    getCache (setCache cs n s) n = some s := by
  induction cs with
  | nil => simp [getCache] at h
  | cons hd tl ih =>
    obtain ⟨m, x⟩ := hd
    by_cases hm : m = n
    · simp [setCache, hm, getCache]
    · simp only [getCache, hm, if_false] at h
      simp [setCache, hm, getCache, ih h]

lemma cacheHas_applyWrite (cs : CacheSet) (w : DeferredWrite) :
    cacheHas (applyWrite cs w) w.cacheName w.url = some w.response := by
  induction cs with
  | nil => simp [applyWrite, cacheHas, getCache, storeGet_storePut_self]
  | cons hd tl ih =>
    obtain ⟨n, s⟩ := hd
    by_cases hn : n = w.cacheName
    · simp [applyWrite, hn, cacheHas, getCache, storeGet_storePut_self]
    · simp only [applyWrite, hn, if_false]
      simpa [cacheHas, getCache, hn] using ih

lemma getCache_isSome_mem (cs : CacheSet) (n : String)
    (h : (getCache cs n).isSome = true) : n ∈ cacheNames cs := by
  induction cs with
  | nil => simp [getCache] at h
  | cons hd tl ih =>
    obtain ⟨m, s⟩ := hd
    by_cases hm : m = n
    · simp [cacheNames, hm]
    · simp only [getCache, hm, if_false] at h
      simp [cacheNames] at ih ⊢
      exact Or.inr (ih h)

lemma cacheNames_activate (cs : CacheSet) :
    cacheNames (activate cs) = (cacheNames cs).filter (fun k => k = CACHE_NAME) := by
  induction cs with
  | nil => simp [activate, cacheNames]
  | cons hd tl ih =>
    obtain ⟨n, s⟩ := hd
    by_cases hn : n = CACHE_NAME
    · simp [activate, cacheNames, List.filter, hn] at ih ⊢
      exact ih
    · simp [activate, cacheNames, List.filter, hn] at ih ⊢
      exact ih

lemma filter_eq_singleton_of_nodup :
    ∀ (l : List String) (n : String), l.Nodup → n ∈ l →
      l.filter (fun k => k = n) = [n] := by
  intro l
  induction l with
  | nil => intro n _ h; simp at h
  | cons a tl ih =>
    intro n hnd hmem
    have hna : a ∉ tl := (List.nodup_cons.mp hnd).1
    have hnd' : tl.Nodup := (List.nodup_cons.mp hnd).2
    rcases List.mem_cons.mp hmem with h1 | h1
    · subst h1
      have : tl.filter (fun k => k = n) = [] := by
        rw [List.filter_eq_nil_iff]
        intro b hb
        simp only [decide_eq_true_eq]
        exact fun hc => hna (hc ▸ hb)
      simp [List.filter, this]
    · have hne : a ≠ n := fun hc => hna (hc ▸ h1)
      simp [List.filter, hne, ih n hnd' h1]

lemma getCache_activate_ne (cs : CacheSet) (n : String) (h : n ≠ CACHE_NAME) :
    getCache (activate cs) n = none := by
  induction cs with
  | nil => simp [activate, getCache]
  | cons hd tl ih =>
    obtain ⟨m, s⟩ := hd
    by_cases hm : m = CACHE_NAME
    · have hmn : ¬CACHE_NAME = n := fun hc => h hc.symm
      simp [activate, hm, getCache, hmn] at ih ⊢
      exact ih
    · simp [activate, hm] at ih ⊢
      exact ih

lemma install_eq (cs : CacheSet) (net : Network) :
    install cs net =
      match addAll ((getCache cs CACHE_NAME).getD []) net ASSETS with
      | none => none
      | some s1 => some (setCache (openCache cs CACHE_NAME) CACHE_NAME s1) := by
  unfold install
  rw [getCache_openCache_self]

/-! Claim theorems. -/

/-- C1: for every request whose pathname starts with the API prefix `/api/`, the
handler returns the synthetic fallback exactly when the network fetch fails at
transport level — a response with JSON body `{"error":"You appear to be offline."}`
(braces escaped here), a `Content-Type: application/json` header and a success
status — never propagating the error; and whenever the fetch resolves with any
HTTP status, that exact response is returned unmodified with no fallback. -/
theorem api_fallback_and_passthrough (req : Request) (cs : CacheSet) (net : Network)
    (h : strStartsWith req.pathname "/api/" = true) :
    (net req = none →
      handleFetch req cs net = ⟨some offlineFallback, true, []⟩ ∧
      offlineFallback.body = "\x7b\"error\":\"You appear to be offline.\"\x7d" ∧
      ("Content-Type", "application/json") ∈ offlineFallback.headers ∧
      offlineFallback.ok = true) ∧
    (∀ r, net req = some r → handleFetch req cs net = ⟨some r, true, []⟩) := by
  constructor
  · intro hn
    exact ⟨by simp [handleFetch, h, hn], by decide, by decide, by decide⟩
  · intro r hr
    simp [handleFetch, h, hr]

/-- Witness for C1 at the concrete request `/api/status` with the network down. -/
theorem api_fallback_and_passthrough_witness :
    strStartsWith "/api/status" "/api/" = true ∧
    handleFetch ⟨"/api/status", "GET"⟩ [] (fun _ => none) =
      ⟨some offlineFallback, true, []⟩ :=
  ⟨by decide,
    ((api_fallback_and_passthrough ⟨"/api/status", "GET"⟩ [] (fun _ => none)
      (by decide)).1 rfl).1⟩

/-- C2: for every non-API request with a store entry, the handler returns the
stored response and performs no network call while handling it. -/
theorem cache_hit_serves_store (req : Request) (cs : CacheSet) (net : Network)
    (resp : Response)
    (h1 : strStartsWith req.pathname "/api/" = false)
    (h2 : cachesMatch cs req = some resp) :
    handleFetch req cs net = ⟨some resp, false, []⟩ := by
  simp [handleFetch, h1, h2]

/-- Witness for C2 at `/index.html` present in the `atc-v1` store. -/
theorem cache_hit_serves_store_witness :
    handleFetch ⟨"/index.html", "GET"⟩ [("atc-v1", [("/index.html", ⟨200, [], "home"⟩)])]
      (fun _ => none) = ⟨some ⟨200, [], "home"⟩, false, []⟩ :=
  cache_hit_serves_store ⟨"/index.html", "GET"⟩
    [("atc-v1", [("/index.html", ⟨200, [], "home"⟩)])] (fun _ => none)
    ⟨200, [], "home"⟩ (by decide) (by decide)

/-- C3: for every non-API GET request with no store entry, if the network call
succeeds with a 2xx response, the handler returns exactly that response and
records a deferred (asynchronous, applied after the response is already
determined) store write; after the deferred write is applied, the active store
contains an entry for the request equal to that response. -/
theorem cache_miss_get_ok_populates (req : Request) (cs : CacheSet) (net : Network)
    (resp : Response)
    (h1 : strStartsWith req.pathname "/api/" = false)
    (h2 : cachesMatch cs req = none)
    (h3 : req.method = "GET")
    (h4 : net req = some resp)
    (h5 : resp.ok = true) :
    handleFetch req cs net = ⟨some resp, true, [⟨CACHE_NAME, req.pathname, resp⟩]⟩ ∧
    cacheHas (applyWrites cs (handleFetch req cs net).writes) CACHE_NAME req.pathname =
      some resp := by
  have hh : handleFetch req cs net = ⟨some resp, true, [⟨CACHE_NAME, req.pathname, resp⟩]⟩ := by
    simp [handleFetch, h1, h2, h4, h5, h3, Response.clone]
  refine ⟨hh, ?_⟩
  rw [hh]
  exact cacheHas_applyWrite cs ⟨CACHE_NAME, req.pathname, resp⟩

/-- Witness for C3 at a GET of `/app.js` missing from the store, network 200. -/
theorem cache_miss_get_ok_populates_witness :
    handleFetch ⟨"/app.js", "GET"⟩ [("atc-v1", [])] (fun _ => some ⟨200, [], "js"⟩) =
      ⟨some ⟨200, [], "js"⟩, true, [⟨CACHE_NAME, "/app.js", ⟨200, [], "js"⟩⟩]⟩ ∧
    cacheHas (applyWrites [("atc-v1", [])]
        (handleFetch ⟨"/app.js", "GET"⟩ [("atc-v1", [])]
          (fun _ => some ⟨200, [], "js"⟩)).writes)
      CACHE_NAME "/app.js" = some ⟨200, [], "js"⟩ :=
  cache_miss_get_ok_populates ⟨"/app.js", "GET"⟩ [("atc-v1", [])]
    (fun _ => some ⟨200, [], "js"⟩) ⟨200, [], "js"⟩
    (by decide) (by decide) rfl rfl (by decide)

/-- C4: after a successful install, the store named by the current version tag
contains, for every manifest URL, an entry equal to the response fetched for
that URL during setup. -/
theorem install_populates_manifest (cs : CacheSet) (net : Network) (cs1 : CacheSet)
    (h : install cs net = some cs1) :
    ∀ u ∈ ASSETS, ∃ r, net ⟨u, "GET"⟩ = some r ∧ cacheHas cs1 CACHE_NAME u = some r := by
  intro u hu
  have hopen := getCache_openCache_self cs CACHE_NAME
  rw [install_eq] at h
  cases ha : addAll ((getCache cs CACHE_NAME).getD []) net ASSETS with
  | none => rw [ha] at h; simp at h
  | some s1 =>
    rw [ha] at h
    simp only [Option.some.injEq] at h
    subst h
    obtain ⟨r, hr, hs⟩ := (addAll_spec net ASSETS _ s1 ha u).1 hu
    refine ⟨r, hr, ?_⟩
    unfold cacheHas
    rw [getCache_setCache_self _ _ _ s1 hopen]
    exact hs

/-- Witness for C4: install into empty storage with a network answering every
URL with a 200 response echoing the pathname; check the `/index.html` entry. -/
theorem install_populates_manifest_witness :
    ∃ r, (fun rq : Request => some (⟨200, [], rq.pathname⟩ : Response)) ⟨"/index.html", "GET"⟩ =
        some r ∧
      cacheHas ((install [] (fun rq : Request => some (⟨200, [], rq.pathname⟩ : Response))).getD [])
        CACHE_NAME "/index.html" = some r :=
  install_populates_manifest [] (fun rq : Request => some (⟨200, [], rq.pathname⟩ : Response))
    ((install [] (fun rq : Request => some (⟨200, [], rq.pathname⟩ : Response))).getD [])
    (by decide) "/index.html" (by decide)

/-- C5: if any manifest fetch fails during setup, the whole install fails and
the upgrade leaves the worker state unchanged: the new version does not
activate and the previously active version keeps serving. -/
theorem setup_failure_aborts (st : WorkerState) (net : Network) (u : String)
    (h1 : u ∈ ASSETS) (h2 : net ⟨u, "GET"⟩ = none) :
    install st.caches net = none ∧ upgrade st net = st := by
  have hinst : install st.caches net = none := by
    unfold install
    cases hg : getCache (openCache st.caches CACHE_NAME) CACHE_NAME with
    | none => rfl
    | some s => simp [addAll_fail net u ASSETS s h1 h2]
  exact ⟨hinst, by simp [upgrade, hinst]⟩

/-- Witness for C5: network fully down, previously active version `atc-v0`. -/
theorem setup_failure_aborts_witness :
    install (WorkerState.mk (some "atc-v0") [("atc-v0", [])]).caches (fun _ => none) = none ∧
    upgrade ⟨some "atc-v0", [("atc-v0", [])]⟩ (fun _ => none) =
      ⟨some "atc-v0", [("atc-v0", [])]⟩ :=
  setup_failure_aborts ⟨some "atc-v0", [("atc-v0", [])]⟩ (fun _ => none) "/"
    (by decide) rfl

/-- C6: after activation, given that cache names are unique (the platform's
storage is a map) and a store with the current version tag exists (guaranteed
by the preceding successful install), enumerating store names yields exactly
the current version tag, and every store under a different tag is absent. -/
theorem activation_single_store (cs : CacheSet)
    (h1 : (cacheNames cs).Nodup)
    (h2 : (getCache cs CACHE_NAME).isSome = true) :
    cacheNames (activate cs) = [CACHE_NAME] ∧
    ∀ n, n ≠ CACHE_NAME → getCache (activate cs) n = none := by
  refine ⟨?_, fun n hn => getCache_activate_ne cs n hn⟩
  rw [cacheNames_activate]
  exact filter_eq_singleton_of_nodup _ _ h1 (getCache_isSome_mem cs CACHE_NAME h2)

/-- Witness for C6: a stale `atc-v0` store next to the current `atc-v1` one. -/
theorem activation_single_store_witness :
    cacheNames (activate [("atc-v0", []), ("atc-v1", [])]) = [CACHE_NAME] ∧
    getCache (activate [("atc-v0", []), ("atc-v1", [])]) "atc-v0" = none :=
  ⟨(activation_single_store [("atc-v0", []), ("atc-v1", [])] (by decide) (by decide)).1,
   (activation_single_store [("atc-v0", []), ("atc-v1", [])] (by decide) (by decide)).2
     "atc-v0" (by decide)⟩

/-- C7: for every non-API request with no store entry whose method is not GET,
if the network call succeeds the response is returned to the caller and no
store write occurs: applying the (empty) deferred writes leaves the storage
unchanged. -/
theorem cache_miss_non_get_no_write (req : Request) (cs : CacheSet) (net : Network)
    (resp : Response)
    (h1 : strStartsWith req.pathname "/api/" = false)
    (h2 : cachesMatch cs req = none)
    (h3 : req.method ≠ "GET")
    (h4 : net req = some resp) :
    handleFetch req cs net = ⟨some resp, true, []⟩ ∧
    applyWrites cs (handleFetch req cs net).writes = cs := by
  have hh : handleFetch req cs net = ⟨some resp, true, []⟩ := by
    simp [handleFetch, h1, h2, h4, h3]
  exact ⟨hh, by rw [hh]; rfl⟩

/-- Witness for C7: a POST to `/submit` with an empty current store. -/
theorem cache_miss_non_get_no_write_witness :
    handleFetch ⟨"/submit", "POST"⟩ [("atc-v1", [])] (fun _ => some ⟨200, [], "ok"⟩) =
      ⟨some ⟨200, [], "ok"⟩, true, []⟩ ∧
    applyWrites [("atc-v1", [])]
      (handleFetch ⟨"/submit", "POST"⟩ [("atc-v1", [])]
        (fun _ => some ⟨200, [], "ok"⟩)).writes = [("atc-v1", [])] :=
  cache_miss_non_get_no_write ⟨"/submit", "POST"⟩ [("atc-v1", [])]
    (fun _ => some ⟨200, [], "ok"⟩) ⟨200, [], "ok"⟩
    (by decide) (by decide) (by decide) rfl

/-- C8: for every non-API request with no cache hit whose network fetch fails
at transport level, the failure is propagated to the caller as a failed fetch
(no response value), with no fallback substituted and no store write. -/
theorem cache_miss_network_failure_propagates (req : Request) (cs : CacheSet)
    (net : Network)
    (h1 : strStartsWith req.pathname "/api/" = false)
    (h2 : cachesMatch cs req = none)
    (h3 : net req = none) :
    handleFetch req cs net = ⟨none, true, []⟩ := by
  simp [handleFetch, h1, h2, h3]

/-- Witness for C8: a GET of `/missing.png` with empty storage, network down. -/
theorem cache_miss_network_failure_propagates_witness :
    handleFetch ⟨"/missing.png", "GET"⟩ [] (fun _ => none) = ⟨none, true, []⟩ :=
  cache_miss_network_failure_propagates ⟨"/missing.png", "GET"⟩ [] (fun _ => none)
    (by decide) (by decide) rfl

/-- C9: routing is determined solely by whether the pathname starts with the
string `/api/`: the handler equals the API branch when it does and the
cache-first static branch when it does not, and in particular the pathnames
`/api` (no trailing slash) and `/apidocs` take the static branch. -/
theorem routing_by_api_slash_only :
    (∀ (req : Request) (cs : CacheSet) (net : Network),
      handleFetch req cs net =
        if strStartsWith req.pathname "/api/" then apiBranch req net
        else staticBranch req cs net) ∧
    strStartsWith "/api" "/api/" = false ∧
    strStartsWith "/apidocs" "/api/" = false ∧
    (∀ (cs : CacheSet) (net : Network) (m : String),
      handleFetch ⟨"/api", m⟩ cs net = staticBranch ⟨"/api", m⟩ cs net) ∧
    (∀ (cs : CacheSet) (net : Network) (m : String),
      handleFetch ⟨"/apidocs", m⟩ cs net = staticBranch ⟨"/apidocs", m⟩ cs net) := by
  have hdec : ∀ (req : Request) (cs : CacheSet) (net : Network),
      handleFetch req cs net =
        if strStartsWith req.pathname "/api/" then apiBranch req net
        else staticBranch req cs net := by
    intro req cs net
    rfl
  have h1 : strStartsWith "/api" "/api/" = false := by decide
  have h2 : strStartsWith "/apidocs" "/api/" = false := by decide
  refine ⟨hdec, h1, h2, ?_, ?_⟩
  · intro cs net m
    rw [hdec]
    simp [h1]
  · intro cs net m
    rw [hdec]
    simp [h2]

/-- C10: handling any request whose pathname starts with the API prefix records
no store write at all — regardless of method and of whether the fetch fails,
succeeds, or returns an error status — so the storage is left unchanged. -/
theorem api_requests_never_write_store (req : Request) (cs : CacheSet) (net : Network)
    (h : strStartsWith req.pathname "/api/" = true) :
    (handleFetch req cs net).writes = [] ∧
    applyWrites cs (handleFetch req cs net).writes = cs := by
  cases hn : net req with
  | none => simp [handleFetch, h, hn, applyWrites]
  | some r => simp [handleFetch, h, hn, applyWrites]

/-- Witness for C10: a POST to `/api/data` answered by the network with a 500. -/
theorem api_requests_never_write_store_witness :
    (handleFetch ⟨"/api/data", "POST"⟩ [("atc-v1", [])]
      (fun _ => some ⟨500, [], "err"⟩)).writes = [] ∧
    applyWrites [("atc-v1", [])]
      (handleFetch ⟨"/api/data", "POST"⟩ [("atc-v1", [])]
        (fun _ => some ⟨500, [], "err"⟩)).writes = [("atc-v1", [])] :=
  api_requests_never_write_store ⟨"/api/data", "POST"⟩ [("atc-v1", [])]
    (fun _ => some ⟨500, [], "err"⟩) (by decide)
